import Mathlib

/-!
Verification of the floating-point-protocol Solana program
(`src/solana/src/{state,error,instruction,processor}.rs`) against its
natural-language specification.

Shallow embedding conventions:
* `Pubkey` and 32-byte commitment/nullifier values are modelled as `Nat`
  (opaque identifiers compared only for equality).
* `u64` quantities are `Nat` together with explicit `% 2^64` / checked
  arithmetic where the Rust code uses casts or `checked_add`/`checked_sub`.
* `i64` timestamps are `Int` (no claim depends on i64 wraparound).
* Each processor entry point becomes a pure function from the instruction
  arguments plus the initial contents of the writable accounts to a result
  and the final account contents.  Writes that the Rust code performs on the
  account buffers before a later check fails are reflected faithfully: the
  returned account contents are exactly what the buffers hold when the
  function returns, whether with `Ok` or with an error.
-/

/-- 2^64, the modulus of Rust `u64` arithmetic. -/
def U64_MOD : Nat := 18446744073709551616

/-- Rust `u64::checked_add`. -/
def checked_add (a b : Nat) : Option Nat :=
  if a + b < U64_MOD then some (a + b) else none

/-- Rust `u64::checked_sub`. -/
def checked_sub (a b : Nat) : Option Nat :=
  if b ≤ a then some (a - b) else none

/-- The fee computation `(amount as u128 * rate as u128 / 10000) as u64`
from `processor.rs`.  The `u128` product of a `u64` and a `u16` is exact;
the final `as u64` cast truncates modulo `2^64`. -/
def fee64 (amount rate : Nat) : Nat :=
  amount * rate / 10000 % U64_MOD

/-- `FPPError` from `src/solana/src/error.rs`. -/
inductive FPPError where
  | InvalidInstruction
  | NotRentExempt
  | InvalidAmount
  | InvalidCommitment
  | NullifierAlreadyUsed
  | PointNotActive
  | PointLocked
  | WithdrawalNotReady
  | InsufficientBalance
  | Unauthorized
  | InvalidProof
  | InvalidRingSignature
  | RateLimitExceeded
  | FlashLoanDetected
  | InvalidAccount
  | AccountAlreadyInitialized
  | AccountNotInitialized
  deriving DecidableEq, Repr

/-- The subset of `solana_program::ProgramError` values this program can
return: custom protocol errors and the missing-signature error. -/
inductive ProgErr where
  | Custom : FPPError → ProgErr
  | MissingRequiredSignature
  deriving DecidableEq, Repr

instance : DecidableEq (Except ProgErr Unit) := fun x y =>
  match x, y with
  | .ok (), .ok () => isTrue rfl
  | .error e, .error f =>
    if h : e = f then isTrue (by rw [h]) else isFalse (fun hh => by cases hh; exact h rfl)
  | .ok _, .error _ => isFalse (fun hh => by cases hh)
  | .error _, .ok _ => isFalse (fun hh => by cases hh)

/-- `ProtocolState` from `src/solana/src/state.rs`. -/
structure ProtocolState where
  is_initialized : Bool
  authority : Nat
  treasury : Nat
  usdt_mint : Nat
  total_deposited : Nat
  total_withdrawn : Nat
  total_fees : Nat
  total_points : Nat
  deposit_fee_rate : Nat
  withdrawal_fee_rate : Nat
  is_paused : Bool
  deriving DecidableEq, Repr

/-- `FloatingPoint` from `src/solana/src/state.rs`. -/
structure FloatingPoint where
  is_initialized : Bool
  commitment : Nat
  created_at : Int
  mass : Nat
  is_active : Bool
  creator : Nat
  locked_until : Int
  deriving DecidableEq, Repr

/-- `WithdrawalRequest` from `src/solana/src/state.rs`. -/
structure WithdrawalRequest where
  is_initialized : Bool
  requester : Nat
  amount : Nat
  request_time : Int
  unlock_time : Int
  completed : Bool
  cancelled : Bool
  deriving DecidableEq, Repr

/-- `NullifierSet` from `src/solana/src/state.rs`. -/
structure NullifierSet where
  is_initialized : Bool
  nullifier : Nat
  used : Bool
  timestamp : Int
  deriving DecidableEq, Repr

/-!
## Initialize

Embeds `Processor::process_initialize`.  The name is shortened to
`process_init`; the body is a line-for-line translation: signer check, the
fee-rate bound check, then an unconditional overwrite of the protocol-state
account.  The source never deserializes or inspects the existing account
contents, so the initial state appears only in the error branches.
-/

/-- `Processor::process_initialize` (`processor.rs` lines 26-65). -/
def process_init (authority_key : Nat) (authority_signed : Bool)
    (treasury_key usdt_mint_key : Nat)
    (deposit_fee_rate withdrawal_fee_rate : Nat)
    (state0 : ProtocolState) : Except ProgErr Unit × ProtocolState :=
  if !authority_signed then
    (.error .MissingRequiredSignature, state0)
  else if 500 < deposit_fee_rate ∨ 500 < withdrawal_fee_rate then
    (.error (.Custom .InvalidAmount), state0)
  else
    (.ok (), { is_initialized := true
               authority := authority_key
               treasury := treasury_key
               usdt_mint := usdt_mint_key
               total_deposited := 0
               total_withdrawn := 0
               total_fees := 0
               total_points := 0
               deposit_fee_rate := deposit_fee_rate
               withdrawal_fee_rate := withdrawal_fee_rate
               is_paused := false })

/-!
## Deposit
-/

/-- The `FloatingPoint` record built for one commitment inside the loop of
`process_deposit` (`processor.rs` lines 127-139). -/
def depositPoint (user_key : Nat) (now : Int) (c : Nat) : FloatingPoint :=
  { is_initialized := true
    commitment := c
    created_at := now
    mass := 1
    is_active := true
    creator := user_key
    locked_until := now + 12 }

/-- Writable accounts of `process_deposit`: the protocol-state account and
the single floating-point account the instruction supplies. -/
structure DepositAccounts where
  protocol_state : ProtocolState
  point : FloatingPoint
  deriving DecidableEq, Repr

/-- Everything observable about one `process_deposit` run: the returned
result, the final contents of the writable accounts, the SPL-token
transfers invoked (source, destination, amount), and the successive
serializations performed on the point account. -/
structure DepositOutcome where
  result : Except ProgErr Unit
  accounts : DepositAccounts
  transfers : List (Nat × Nat × Nat)
  writes : List FloatingPoint
  deriving DecidableEq, Repr

/-- `Processor::process_deposit` (`processor.rs` lines 67-159).
Faithful points: the pause check precedes the range check; the fee uses the
widened `u128` product; the token transfer of `net_amount` happens before
any account write; every iteration of the commitment loop serializes into
the same single `point_info` account, so the account ends up holding the
record of the last commitment; the three counter updates use `checked_add`
and any overflow aborts with `InvalidAmount` after the point account has
already been written. -/
def process_deposit (user_key : Nat) (user_signed : Bool)
    (user_token treasury_token : Nat)
    (amount : Nat) (commitments : List Nat)
    (accounts : DepositAccounts) (now : Int) : DepositOutcome :=
  if !user_signed then
    ⟨.error .MissingRequiredSignature, accounts, [], []⟩
  else
    let ps := accounts.protocol_state
    if ps.is_paused then
      ⟨.error (.Custom .Unauthorized), accounts, [], []⟩
    else if amount < 10000000 ∨ 100000000000 < amount then
      ⟨.error (.Custom .InvalidAmount), accounts, [], []⟩
    else
      let fee := fee64 amount ps.deposit_fee_rate
      match checked_sub amount fee with
      | none => ⟨.error (.Custom .InvalidAmount), accounts, [], []⟩
      | some net_amount =>
        let transfers := [(user_token, treasury_token, net_amount)]
        let num_points := amount / 10000000
        let writes := commitments.map (depositPoint user_key now)
        let point1 := writes.getLast?.getD accounts.point
        match checked_add ps.total_deposited amount with
        | none => ⟨.error (.Custom .InvalidAmount), ⟨ps, point1⟩, transfers, writes⟩
        | some td =>
          match checked_add ps.total_points num_points with
          | none => ⟨.error (.Custom .InvalidAmount), ⟨ps, point1⟩, transfers, writes⟩
          | some tp =>
            match checked_add ps.total_fees fee with
            | none => ⟨.error (.Custom .InvalidAmount), ⟨ps, point1⟩, transfers, writes⟩
            | some tf =>
              ⟨.ok (),
               ⟨{ ps with total_deposited := td, total_points := tp, total_fees := tf },
                point1⟩,
               transfers, writes⟩

/-!
## Privacy payment (the stub in the source)
-/

/-- Account contents a `PrivacyPayment` instruction can reference. -/
structure PrivacyPaymentAccounts where
  protocol_state : ProtocolState
  nullifier_records : List NullifierSet
  point_records : List FloatingPoint
  deriving DecidableEq, Repr

/-- `Processor::process_privacy_payment` (`processor.rs` lines 161-182).
The source is an explicit stub: it logs two messages and returns `Ok(())`
without reading or writing any account, checking the pause flag, checking
any nullifier, or verifying any proof. -/
def process_privacy_payment (input_nullifiers output_commitments : List Nat)
    (proof ring_signature : List Nat)
    (accounts : PrivacyPaymentAccounts) :
    Except ProgErr Unit × PrivacyPaymentAccounts :=
  (.ok (), accounts)

/-!
## Request withdrawal
-/

/-- Writable accounts of `process_request_withdrawal`: the protocol-state
account, the withdrawal-request account, and the point accounts the
instruction documentation lists as "Point accounts to withdraw".  The
source fetches only the first four accounts and never touches the point
accounts, which the embedding reflects by passing them through unchanged. -/
structure RequestWithdrawalAccounts where
  protocol_state : ProtocolState
  withdrawal_request : WithdrawalRequest
  points : List FloatingPoint
  deriving DecidableEq, Repr

/-- `Processor::process_request_withdrawal` (`processor.rs` lines 184-217).
Faithful points: the protocol state is never deserialized (no pause check),
the point accounts and the `nullifiers` argument are never used, no lock or
active check happens, and the request account is unconditionally
overwritten with `amount = point_ids.len() * 10_000_000` (u64 product) and
`unlock_time = now + 86400`. -/
def process_request_withdrawal (user_key : Nat) (user_signed : Bool)
    (point_ids : List Nat) (nullifiers : List Nat)
    (accounts : RequestWithdrawalAccounts) (now : Int) :
    Except ProgErr Unit × RequestWithdrawalAccounts :=
  if !user_signed then
    (.error .MissingRequiredSignature, accounts)
  else
    let amount := point_ids.length * 10000000 % U64_MOD
    (.ok (),
     { accounts with withdrawal_request :=
        { is_initialized := true
          requester := user_key
          amount := amount
          request_time := now
          unlock_time := now + 86400
          completed := false
          cancelled := false } })

/-!
## Complete withdrawal
-/

/-- Writable accounts of `process_complete_withdrawal`. -/
structure CompleteWithdrawalAccounts where
  protocol_state : ProtocolState
  withdrawal_request : WithdrawalRequest
  deriving DecidableEq, Repr

/-- Observable outcome of one `process_complete_withdrawal` run; as in
`DepositOutcome`, `transfers` records the SPL-token transfers invoked. -/
structure CompleteOutcome where
  result : Except ProgErr Unit
  accounts : CompleteWithdrawalAccounts
  transfers : List (Nat × Nat × Nat)
  deriving DecidableEq, Repr

/-- `Processor::process_complete_withdrawal` (`processor.rs` lines 219-270).
Faithful points: the signer's key is never compared with the stored
`requester`; the timelock check `now < unlock_time` fails with
`WithdrawalNotReady`; a terminal (`completed` or `cancelled`) request fails
with `Unauthorized`; the fee uses the widened `u128` product; the source
computes `net_amount` and *logs* it but builds no token-transfer
instruction (unlike `process_deposit`), so `transfers` is always empty; the
request account is serialized with `completed := true` *before* the
`checked_add` on `total_withdrawn`, so an overflow there errors out with
the request already marked completed. -/
def process_complete_withdrawal (user_key : Nat) (user_signed : Bool)
    (user_token treasury_token : Nat)
    (accounts : CompleteWithdrawalAccounts) (now : Int) : CompleteOutcome :=
  if !user_signed then
    ⟨.error .MissingRequiredSignature, accounts, []⟩
  else
    let wr := accounts.withdrawal_request
    if now < wr.unlock_time then
      ⟨.error (.Custom .WithdrawalNotReady), accounts, []⟩
    else if wr.completed ∨ wr.cancelled then
      ⟨.error (.Custom .Unauthorized), accounts, []⟩
    else
      let ps := accounts.protocol_state
      let fee := fee64 wr.amount ps.withdrawal_fee_rate
      match checked_sub wr.amount fee with
      | none => ⟨.error (.Custom .InvalidAmount), accounts, []⟩
      | some _net_amount =>
        let wr1 := { wr with completed := true }
        match checked_add ps.total_withdrawn wr.amount with
        | none => ⟨.error (.Custom .InvalidAmount), ⟨ps, wr1⟩, []⟩
        | some tw =>
          ⟨.ok (), ⟨{ ps with total_withdrawn := tw }, wr1⟩, []⟩

/-!
## Shielded transfer engine, modelled from the specification

The source's `process_privacy_payment` is an explicit stub ("TODO:
Implement full privacy payment logic"), so the nullifier-consumption
semantics that claim C1 is about exists only in the specification (§4.2).
The definitions below are the spec-modelled engine.
-/

/-- Whether the registry records nullifier value `n` as used. -/
def nullifierUsed (reg : List NullifierSet) (n : Nat) : Bool :=
  reg.any fun r => r.nullifier == n && r.used

/-- Modelled from the spec: marking a batch of nullifiers used in the
registry (§4.2 step 7).  Records already keyed by one of the given values
are set `used := true` with the current timestamp; values with no record
yet get a fresh record, `used := true`. -/
def markUsedAll (reg : List NullifierSet) (ns : List Nat) (now : Int) :
    List NullifierSet :=
  (reg.map fun r =>
    if ns.contains r.nullifier then { r with used := true, timestamp := now } else r)
  ++ ((ns.filter fun n => !reg.any fun r => r.nullifier == n).map fun n =>
    { is_initialized := true, nullifier := n, used := true, timestamp := now })

/-- The shielded-ledger state the engine acts on: the Nullifier Registry
and the Commitment Store. -/
structure ShieldedState where
  nullifiers : List NullifierSet
  points : List FloatingPoint
  deriving DecidableEq, Repr

/-- One privacy-payment invocation: the protocol-ledger snapshot, the
instruction arguments, the referenced input-commitment records, the two
oracle verdicts, the clock, and the output creator identity. -/
structure PPCall where
  ps : ProtocolState
  input_nullifiers : List Nat
  inputs : List FloatingPoint
  output_commitments : List Nat
  proof_ok : Bool
  ring_ok : Bool
  now : Int
  creator : Nat
  deriving DecidableEq, Repr

/-- Modelled from the spec: the full Shielded Transfer Engine transition of
§4.2, which `process_privacy_payment` leaves unimplemented.  Steps in the
spec's order: (1) reject when paused; (2) fail `NullifierAlreadyUsed` when
any input nullifier is already used; (3) fail `PointLocked` /
`PointNotActive` on a locked / inactive input commitment; (4)-(5) the two
verification oracles; (6) mass conservation (each output commitment is
minted with mass 1, so the outputs' total mass is their count; the spec
names no specific error kind for this check, `InvalidAmount` is used);
(7) atomically mark the input nullifiers used, deactivate the input
commitments, and append the output commitments with `mass = 1` and
`locked_until = now + 12` (the maturity delay). -/
def privacy_payment_spec (c : PPCall) (st : ShieldedState) :
    Except ProgErr Unit × ShieldedState :=
  if c.ps.is_paused then
    (.error (.Custom .Unauthorized), st)
  else if c.input_nullifiers.any (fun n => nullifierUsed st.nullifiers n) then
    (.error (.Custom .NullifierAlreadyUsed), st)
  else if c.inputs.any (fun p => decide (c.now < p.locked_until)) then
    (.error (.Custom .PointLocked), st)
  else if c.inputs.any (fun p => !p.is_active) then
    (.error (.Custom .PointNotActive), st)
  else if !c.proof_ok then
    (.error (.Custom .InvalidProof), st)
  else if !c.ring_ok then
    (.error (.Custom .InvalidRingSignature), st)
  else if (c.inputs.map FloatingPoint.mass).sum ≠ c.output_commitments.length then
    (.error (.Custom .InvalidAmount), st)
  else
    (.ok (),
     { nullifiers := markUsedAll st.nullifiers c.input_nullifiers c.now
       points :=
         (st.points.map fun p =>
           if c.inputs.any (fun q => q.commitment == p.commitment)
           then { p with is_active := false } else p)
         ++ c.output_commitments.map fun oc =>
           { is_initialized := true, commitment := oc, created_at := c.now,
             mass := 1, is_active := true, creator := c.creator,
             locked_until := c.now + 12 } })

/-- A privacy-payment call `c` with shielded state `st` successfully
consumes nullifier `n` when it returns `Ok` and lists `n` among its input
nullifiers.  `consumeCount` counts such calls along a whole history. -/
def consumeCount (st : ShieldedState) (calls : List PPCall) (n : Nat) : Nat :=
  match calls with
  | [] => 0
  | c :: rest =>
    (if (privacy_payment_spec c st).1 = Except.ok () ∧ n ∈ c.input_nullifiers
     then 1 else 0)
      + consumeCount (privacy_payment_spec c st).2 rest n

/-- Marking other nullifiers used never resets an already-used one:
`markUsedAll` preserves `used = true`. -/
theorem nullifierUsed_markUsedAll_mono (reg : List NullifierSet) (ns : List Nat)
    (now : Int) (n : Nat) (h : nullifierUsed reg n = true) :
    nullifierUsed (markUsedAll reg ns now) n = true := by
  unfold nullifierUsed at h ⊢
  rw [List.any_eq_true] at h
  obtain ⟨r, hr, hpr⟩ := h
  rw [Bool.and_eq_true] at hpr
  have hrn : r.nullifier = n := by simpa using hpr.1
  unfold markUsedAll
  rw [List.any_append, Bool.or_eq_true]
  left
  rw [List.any_eq_true]
  by_cases hmem : r.nullifier ∈ ns
  · refine ⟨{ r with used := true, timestamp := now }, ?_, ?_⟩
    · rw [List.mem_map]
      exact ⟨r, hr, by simp [hmem]⟩
    · simp [hrn]
  · refine ⟨r, ?_, ?_⟩
    · rw [List.mem_map]
      exact ⟨r, hr, by simp [hmem]⟩
    · simp [hrn, hpr.2]

/-- After `markUsedAll reg ns now`, every nullifier value in `ns` is
recorded as used. -/
theorem nullifierUsed_markUsedAll_of_mem (reg : List NullifierSet) (ns : List Nat)
    (now : Int) (n : Nat) (hm : n ∈ ns) :
    nullifierUsed (markUsedAll reg ns now) n = true := by
  unfold nullifierUsed markUsedAll
  rw [List.any_append, Bool.or_eq_true]
  cases hreg : reg.any (fun r => r.nullifier == n) with
  | true =>
    left
    rw [List.any_eq_true] at hreg
    obtain ⟨r, hr, hpr⟩ := hreg
    have hrn : r.nullifier = n := by simpa using hpr
    have hmem : r.nullifier ∈ ns := by rw [hrn]; exact hm
    rw [List.any_eq_true]
    refine ⟨{ r with used := true, timestamp := now }, ?_, by simp [hrn]⟩
    rw [List.mem_map]
    exact ⟨r, hr, by simp [hmem]⟩
  | false =>
    right
    rw [List.any_eq_true]
    refine ⟨{ is_initialized := true, nullifier := n, used := true, timestamp := now },
      ?_, by simp⟩
    rw [List.mem_map]
    refine ⟨n, ?_, rfl⟩
    rw [List.mem_filter]
    exact ⟨hm, by simp [hreg]⟩

/-- A privacy payment on a non-paused ledger whose inputs contain an
already-used nullifier fails `NullifierAlreadyUsed` and changes nothing. -/
theorem privacy_payment_fails_of_used (c : PPCall) (st : ShieldedState) (n : Nat)
    (hp : c.ps.is_paused = false) (hm : n ∈ c.input_nullifiers)
    (hu : nullifierUsed st.nullifiers n = true) :
    privacy_payment_spec c st = (.error (.Custom .NullifierAlreadyUsed), st) := by
  unfold privacy_payment_spec
  have hany : c.input_nullifiers.any (fun m => nullifierUsed st.nullifiers m) = true :=
    List.any_eq_true.mpr ⟨n, hm, hu⟩
  simp [hp, hany]

/-- Every privacy-payment run either aborts with an error and leaves the
state unchanged, or commits exactly the `markUsedAll` registry update. -/
theorem privacy_payment_shape (c : PPCall) (st : ShieldedState) :
    ((privacy_payment_spec c st).1 ≠ Except.ok () ∧ (privacy_payment_spec c st).2 = st)
    ∨ ((privacy_payment_spec c st).1 = Except.ok ()
       ∧ (privacy_payment_spec c st).2.nullifiers
         = markUsedAll st.nullifiers c.input_nullifiers c.now) := by
  unfold privacy_payment_spec
  repeat' split
  all_goals first
    | (left; exact ⟨by simp, rfl⟩)
    | (right; exact ⟨rfl, rfl⟩)

/-- No privacy payment ever resets a used nullifier back to unused. -/
theorem privacy_payment_used_mono (c : PPCall) (st : ShieldedState) (n : Nat)
    (hu : nullifierUsed st.nullifiers n = true) :
    nullifierUsed (privacy_payment_spec c st).2.nullifiers n = true := by
  rcases privacy_payment_shape c st with ⟨_, h2⟩ | ⟨_, h2⟩
  · rw [h2]; exact hu
  · rw [h2]; exact nullifierUsed_markUsedAll_mono _ _ _ _ hu

/-- After a call successfully consumes `n`, the registry records `n` used. -/
theorem privacy_payment_used_after_consume (c : PPCall) (st : ShieldedState) (n : Nat)
    (hm : n ∈ c.input_nullifiers)
    (hok : (privacy_payment_spec c st).1 = Except.ok ()) :
    nullifierUsed (privacy_payment_spec c st).2.nullifiers n = true := by
  rcases privacy_payment_shape c st with ⟨h1, _⟩ | ⟨_, h2⟩
  · exact absurd hok h1
  · rw [h2]
    exact nullifierUsed_markUsedAll_of_mem _ _ _ _ hm

/-- Starting from a registry where `n` is already used, no call in any
history consumes `n`. -/
theorem consumeCount_zero_of_used (n : Nat) :
    ∀ (calls : List PPCall) (st : ShieldedState),
      nullifierUsed st.nullifiers n = true → consumeCount st calls n = 0 := by
  intro calls
  induction calls with
  | nil => intro st _; rfl
  | cons c rest ih =>
    intro st hu
    unfold consumeCount
    have h2 : nullifierUsed (privacy_payment_spec c st).2.nullifiers n = true :=
      privacy_payment_used_mono c st n hu
    have hcond : ¬((privacy_payment_spec c st).1 = Except.ok () ∧ n ∈ c.input_nullifiers) := by
      rintro ⟨hok, hm⟩
      by_cases hp : c.ps.is_paused
      · have hpe : privacy_payment_spec c st = (.error (.Custom .Unauthorized), st) := by
          unfold privacy_payment_spec; simp [hp]
        simp [hpe] at hok
      · have hpf : c.ps.is_paused = false := by simpa using hp
        have hfail := privacy_payment_fails_of_used c st n hpf hm hu
        simp [hfail] at hok
    rw [if_neg hcond, ih _ h2]

/-- In any history of privacy-payment calls, at most one successfully
consumes a given nullifier `n`. -/
theorem consumeCount_le_one (n : Nat) :
    ∀ (calls : List PPCall) (st : ShieldedState), consumeCount st calls n ≤ 1 := by
  intro calls
  induction calls with
  | nil => intro st; exact Nat.zero_le 1
  | cons c rest ih =>
    intro st
    unfold consumeCount
    by_cases hcond : (privacy_payment_spec c st).1 = Except.ok () ∧ n ∈ c.input_nullifiers
    · rw [if_pos hcond,
        consumeCount_zero_of_used n rest _
          (privacy_payment_used_after_consume c st n hcond.2 hcond.1)]
    · rw [if_neg hcond, Nat.zero_add]
      exact ih _

/-!
## Concrete states used by the closed theorems below
-/

/-- An ordinary unpaused ledger with 1% fee rates. -/
def basePS : ProtocolState :=
  { is_initialized := true, authority := 1, treasury := 2, usdt_mint := 3,
    total_deposited := 0, total_withdrawn := 0, total_fees := 0, total_points := 0,
    deposit_fee_rate := 100, withdrawal_fee_rate := 100, is_paused := false }

/-- The same ledger with `is_paused = true`. -/
def pausedPS : ProtocolState := { basePS with is_paused := true }

/-- An uninitialized point account's contents. -/
def pt0 : FloatingPoint :=
  { is_initialized := false, commitment := 0, created_at := 0, mass := 0,
    is_active := false, creator := 0, locked_until := 0 }

/-- An uninitialized withdrawal-request account's contents. -/
def wr0 : WithdrawalRequest :=
  { is_initialized := false, requester := 0, amount := 0, request_time := 0,
    unlock_time := 0, completed := false, cancelled := false }

/-- A registry in which nullifier 5 is already marked used. -/
def stUsed5 : ShieldedState :=
  { nullifiers := [{ is_initialized := true, nullifier := 5, used := true, timestamp := 0 }],
    points := [] }

/-- A privacy-payment call attempting to spend nullifier 5 again. -/
def callSpend5 : PPCall :=
  { ps := basePS, input_nullifiers := [5], inputs := [], output_commitments := [],
    proof_ok := true, ring_ok := true, now := 0, creator := 1 }

/-- Claim C1: for every nullifier `n`, at most one privacy-payment operation
in any history successfully consumes `n`; once the registry marks `n` used,
any later non-pause-gated attempt listing `n` among its input nullifiers
fails with `NullifierAlreadyUsed` and leaves the shielded state unchanged;
and no operation ever resets `used(n)` back to `false`.  Stated over
`privacy_payment_spec`, the engine modelled from §4.2 of the spec, because
the source's `process_privacy_payment` is an explicit stub. -/
theorem nullifier_consumed_at_most_once (n : Nat) (st : ShieldedState)
    (calls : List PPCall) (c : PPCall) :
    consumeCount st calls n ≤ 1
    ∧ (c.ps.is_paused = false → n ∈ c.input_nullifiers →
        nullifierUsed st.nullifiers n = true →
        privacy_payment_spec c st = (.error (.Custom .NullifierAlreadyUsed), st))
    ∧ (nullifierUsed st.nullifiers n = true →
        nullifierUsed (privacy_payment_spec c st).2.nullifiers n = true) :=
  ⟨consumeCount_le_one n calls st,
   fun hp hm hu => privacy_payment_fails_of_used c st n hp hm hu,
   fun hu => privacy_payment_used_mono c st n hu⟩

/-- Concrete instance of claim C1's theorem: with nullifier 5 already used,
a second spend attempt fails `NullifierAlreadyUsed` and mutates nothing. -/
theorem nullifier_consumed_at_most_once_witness :
    privacy_payment_spec callSpend5 stUsed5
      = (.error (.Custom .NullifierAlreadyUsed), stUsed5) :=
  (nullifier_consumed_at_most_once 5 stUsed5 [] callSpend5).2.1
    (by decide) (by decide) (by decide)

/-- A point still inside its maturity lock at time 0. -/
def lockedPt : FloatingPoint :=
  { is_initialized := true, commitment := 21, created_at := 0, mass := 1,
    is_active := true, creator := 4, locked_until := 100 }

/-- An already-consumed (inactive) point. -/
def inactivePt : FloatingPoint :=
  { is_initialized := true, commitment := 22, created_at := 0, mass := 1,
    is_active := false, creator := 4, locked_until := 0 }

/-- A withdrawal request by identity 42, past its unlock time at `now = 100`. -/
def wrReady42 : WithdrawalRequest :=
  { is_initialized := true, requester := 42, amount := 20000000, request_time := 0,
    unlock_time := 100, completed := false, cancelled := false }

/-- An in-service ledger with nonzero counters. -/
def psInService : ProtocolState :=
  { is_initialized := true, authority := 4, treasury := 5, usdt_mint := 6,
    total_deposited := 5000000000, total_withdrawn := 1000000000,
    total_fees := 50000000, total_points := 500,
    deposit_fee_rate := 100, withdrawal_fee_rate := 100, is_paused := false }

/-- A ledger whose `total_deposited` counter sits at the `u64` maximum. -/
def psNearMax : ProtocolState :=
  { basePS with total_deposited := 18446744073709551615, deposit_fee_rate := 0 }

/-- Claim C2 (code bug): with `is_paused = true`, `process_deposit` does fail
`Unauthorized` and leaves its accounts unchanged, but `process_privacy_payment`
(the stub) returns `Ok` ignoring the pause flag, and
`process_request_withdrawal` — which never deserializes the protocol state —
returns `Ok` and overwrites the withdrawal-request account while paused. -/
theorem pause_gate_not_enforced :
    (process_deposit 1 true 2 3 10000000 [7] ⟨pausedPS, pt0⟩ 0).result
      = .error (.Custom .Unauthorized)
    ∧ (process_deposit 1 true 2 3 10000000 [7] ⟨pausedPS, pt0⟩ 0).accounts
      = ⟨pausedPS, pt0⟩
    ∧ (process_privacy_payment [5] [6] [] [] ⟨pausedPS, [], []⟩).1 = .ok ()
    ∧ (process_request_withdrawal 1 true [8] [9] ⟨pausedPS, wr0, []⟩ 0).1 = .ok ()
    ∧ (process_request_withdrawal 1 true [8] [9] ⟨pausedPS, wr0, []⟩ 0).2.withdrawal_request
      = { is_initialized := true, requester := 1, amount := 10000000,
          request_time := 0, unlock_time := 86400,
          completed := false, cancelled := false } := by
  decide

/-- Claim C3 (code bug): `process_request_withdrawal` succeeds on a point
that is still locked (`now = 0 < locked_until = 100`) and on an inactive
point, performs neither the `PointLocked` nor the `PointNotActive` check,
and leaves both point records untouched (in particular it never sets
`is_active := false`); only the amount / unlock-time / flag fields of the
created request match the claim. -/
theorem request_withdrawal_skips_point_checks :
    ((0 : Int) < lockedPt.locked_until ∧ lockedPt.is_active = true)
    ∧ inactivePt.is_active = false
    ∧ (process_request_withdrawal 1 true [8, 9] [5, 6]
        ⟨basePS, wr0, [lockedPt, inactivePt]⟩ 0).1 = .ok ()
    ∧ (process_request_withdrawal 1 true [8, 9] [5, 6]
        ⟨basePS, wr0, [lockedPt, inactivePt]⟩ 0).2.points = [lockedPt, inactivePt]
    ∧ (process_request_withdrawal 1 true [8, 9] [5, 6]
        ⟨basePS, wr0, [lockedPt, inactivePt]⟩ 0).2.withdrawal_request
      = { is_initialized := true, requester := 1, amount := 20000000,
          request_time := 0, unlock_time := 86400,
          completed := false, cancelled := false } := by
  decide

/-- Claim C4 (code bug): `process_complete_withdrawal` never compares the
signer with the stored `requester`: signer 1 completes the request whose
requester is 42, and the request is marked `completed`. -/
theorem complete_withdrawal_skips_requester_check :
    wrReady42.requester = 42
    ∧ (42 : Nat) ≠ 1
    ∧ (process_complete_withdrawal 1 true 2 3 ⟨basePS, wrReady42⟩ 100).result = .ok ()
    ∧ (process_complete_withdrawal 1 true 2 3
        ⟨basePS, wrReady42⟩ 100).accounts.withdrawal_request.completed = true := by
  decide

/-- Claim C5 (code bug): on a ready, non-terminal request the handler does
compute `fee = floor(amount * rate / 10000)` and `net = amount - fee`, set
`completed := true` and checked-add the gross amount to `total_withdrawn`,
but it invokes no token-ledger transfer at all — `net = 19_800_000` is only
logged, and the transfer list stays empty. -/
theorem complete_withdrawal_invokes_no_transfer :
    basePS.withdrawal_fee_rate = 100
    ∧ wrReady42.amount = 20000000
    ∧ fee64 wrReady42.amount basePS.withdrawal_fee_rate = 200000
    ∧ wrReady42.amount - fee64 wrReady42.amount basePS.withdrawal_fee_rate = 19800000
    ∧ (process_complete_withdrawal 42 true 2 3 ⟨basePS, wrReady42⟩ 100).result = .ok ()
    ∧ (process_complete_withdrawal 42 true 2 3 ⟨basePS, wrReady42⟩ 100).transfers = []
    ∧ (process_complete_withdrawal 42 true 2 3 ⟨basePS, wrReady42⟩ 100).accounts
      = ⟨{ basePS with total_withdrawn := 20000000 },
         { wrReady42 with completed := true }⟩ := by
  decide

/-- Claim C8 (code bug): `process_initialize` never reads the existing
protocol-state account: a second call on an already-initialized ledger with
nonzero counters succeeds, replaces the authority, and zeroes every
counter, instead of failing `AccountAlreadyInitialized`. -/
theorem second_init_overwrites_state :
    psInService.is_initialized = true
    ∧ (process_init 9 true 10 11 7 8 psInService).1 = .ok ()
    ∧ (process_init 9 true 10 11 7 8 psInService).2
      = { is_initialized := true, authority := 9, treasury := 10, usdt_mint := 11,
          total_deposited := 0, total_withdrawn := 0, total_fees := 0,
          total_points := 0, deposit_fee_rate := 7, withdrawal_fee_rate := 8,
          is_paused := false } := by
  decide

/-- Claim C9 counterexample: a deposit that overflows `total_deposited`
returns `InvalidAmount`, yet the floating-point account has already been
serialized (and the token transfer already invoked) — the program's own
execution does leave a partial write behind on this path. -/
theorem deposit_overflow_partial_write :
    (process_deposit 1 true 2 3 10000000 [77] ⟨psNearMax, pt0⟩ 0).result
      = .error (.Custom .InvalidAmount)
    ∧ (process_deposit 1 true 2 3 10000000 [77] ⟨psNearMax, pt0⟩ 0).accounts.point ≠ pt0
    ∧ (process_deposit 1 true 2 3 10000000 [77] ⟨psNearMax, pt0⟩ 0).accounts.point
      = depositPoint 1 0 77
    ∧ (process_deposit 1 true 2 3 10000000 [77] ⟨psNearMax, pt0⟩ 0).transfers
      = [(2, 3, 10000000)] := by
  decide

/-- With a fee rate of at most 10000 basis points and a `u64` amount, the
truncating cast in `fee64` is the identity and the fee never exceeds the
amount. -/
theorem fee64_eq_and_le (amount rate : Nat) (hr : rate ≤ 10000) (ha : amount < U64_MOD) :
    fee64 amount rate = amount * rate / 10000 ∧ amount * rate / 10000 ≤ amount := by
  have hle : amount * rate / 10000 ≤ amount := by
    calc amount * rate / 10000 ≤ amount * 10000 / 10000 :=
          Nat.div_le_div_right (Nat.mul_le_mul_left _ hr)
      _ = amount := by
          have h4 : (0:Nat) < 10000 := by norm_num
          exact Nat.mul_div_cancel amount h4
  exact ⟨Nat.mod_eq_of_lt (lt_of_le_of_lt hle ha), hle⟩

/-- Claim C9 (amended): every error raised in an operation's validation
phase — before the operation's first account serialization — leaves every
account unchanged and invokes no transfer: the missing-signature errors of
Deposit, RequestWithdrawal, CompleteWithdrawal and Initialize; the Deposit
pause gate, both amount-range bounds and the fee-exceeds-amount
(`checked_sub`) check; the CompleteWithdrawal timelock, terminal-state and
fee-exceeds-amount checks; and the Initialize bound on either fee rate.
The checked-add overflow errors raised *after* a serialization are the
exception (exhibited concretely by the counterexample): an overflow of any
of the three deposit counters errors out with the point account already
written and the transfer already invoked, and a `total_withdrawn` overflow
errors out with the request already marked completed — on chain, atomicity
for those paths comes from the host discarding the failed transaction. -/
theorem validation_errors_mutate_nothing :
    (∀ u ut tt amt cs (acc : DepositAccounts) now,
       process_deposit u false ut tt amt cs acc now
         = ⟨.error .MissingRequiredSignature, acc, [], []⟩)
    ∧ (∀ u ut tt amt cs (acc : DepositAccounts) now,
        acc.protocol_state.is_paused = true →
        process_deposit u true ut tt amt cs acc now
          = ⟨.error (.Custom .Unauthorized), acc, [], []⟩)
    ∧ (∀ u ut tt amt cs (acc : DepositAccounts) now,
        acc.protocol_state.is_paused = false →
        (amt < 10000000 ∨ 100000000000 < amt) →
        process_deposit u true ut tt amt cs acc now
          = ⟨.error (.Custom .InvalidAmount), acc, [], []⟩)
    ∧ (∀ u ut tt amt cs (acc : DepositAccounts) now,
        acc.protocol_state.is_paused = false →
        ¬(amt < 10000000 ∨ 100000000000 < amt) →
        amt < fee64 amt acc.protocol_state.deposit_fee_rate →
        process_deposit u true ut tt amt cs acc now
          = ⟨.error (.Custom .InvalidAmount), acc, [], []⟩)
    ∧ (∀ u pids nfs (acc : RequestWithdrawalAccounts) now,
        process_request_withdrawal u false pids nfs acc now
          = (.error .MissingRequiredSignature, acc))
    ∧ (∀ u ut tt (acc : CompleteWithdrawalAccounts) now,
        process_complete_withdrawal u false ut tt acc now
          = ⟨.error .MissingRequiredSignature, acc, []⟩)
    ∧ (∀ u ut tt (acc : CompleteWithdrawalAccounts) now,
        now < acc.withdrawal_request.unlock_time →
        process_complete_withdrawal u true ut tt acc now
          = ⟨.error (.Custom .WithdrawalNotReady), acc, []⟩)
    ∧ (∀ u ut tt (acc : CompleteWithdrawalAccounts) now,
        acc.withdrawal_request.unlock_time ≤ now →
        acc.withdrawal_request.completed = true ∨ acc.withdrawal_request.cancelled = true →
        process_complete_withdrawal u true ut tt acc now
          = ⟨.error (.Custom .Unauthorized), acc, []⟩)
    ∧ (∀ u ut tt (acc : CompleteWithdrawalAccounts) now,
        acc.withdrawal_request.unlock_time ≤ now →
        acc.withdrawal_request.completed = false →
        acc.withdrawal_request.cancelled = false →
        acc.withdrawal_request.amount
          < fee64 acc.withdrawal_request.amount acc.protocol_state.withdrawal_fee_rate →
        process_complete_withdrawal u true ut tt acc now
          = ⟨.error (.Custom .InvalidAmount), acc, []⟩)
    ∧ (∀ a t m dfr wfr st,
        process_init a false t m dfr wfr st = (.error .MissingRequiredSignature, st))
    ∧ (∀ a t m dfr wfr st, (500 < dfr ∨ 500 < wfr) →
        process_init a true t m dfr wfr st = (.error (.Custom .InvalidAmount), st))
    ∧ (∀ u ut tt amt cs (acc : DepositAccounts) now,
        acc.protocol_state.is_paused = false →
        ¬(amt < 10000000 ∨ 100000000000 < amt) →
        fee64 amt acc.protocol_state.deposit_fee_rate ≤ amt →
        ¬(acc.protocol_state.total_deposited + amt < U64_MOD
          ∧ acc.protocol_state.total_points + amt / 10000000 < U64_MOD
          ∧ acc.protocol_state.total_fees
              + fee64 amt acc.protocol_state.deposit_fee_rate < U64_MOD) →
        process_deposit u true ut tt amt cs acc now
          = ⟨.error (.Custom .InvalidAmount),
             ⟨acc.protocol_state, ((cs.map (depositPoint u now)).getLast?).getD acc.point⟩,
             [(ut, tt, amt - fee64 amt acc.protocol_state.deposit_fee_rate)],
             cs.map (depositPoint u now)⟩)
    ∧ (∀ u ut tt (acc : CompleteWithdrawalAccounts) now,
        acc.withdrawal_request.unlock_time ≤ now →
        acc.withdrawal_request.completed = false →
        acc.withdrawal_request.cancelled = false →
        fee64 acc.withdrawal_request.amount acc.protocol_state.withdrawal_fee_rate
          ≤ acc.withdrawal_request.amount →
        ¬(acc.protocol_state.total_withdrawn + acc.withdrawal_request.amount < U64_MOD) →
        process_complete_withdrawal u true ut tt acc now
          = ⟨.error (.Custom .InvalidAmount),
             ⟨acc.protocol_state, { acc.withdrawal_request with completed := true }⟩,
             []⟩) := by
  refine ⟨?_, ?_, ?_, ?_, ?_, ?_, ?_, ?_, ?_, ?_, ?_, ?_, ?_⟩
  · intro u ut tt amt cs acc now
    simp [process_deposit]
  · intro u ut tt amt cs acc now hp
    simp [process_deposit, hp]
  · intro u ut tt amt cs acc now hp hout
    simp [process_deposit, hp, eq_true hout]
  · intro u ut tt amt cs acc now hp hnr hlt
    have hcs : checked_sub amt (fee64 amt acc.protocol_state.deposit_fee_rate) = none := by
      simp [checked_sub, not_le.mpr hlt]
    simp [process_deposit, hp, hnr, hcs]
  · intro u pids nfs acc now
    simp [process_request_withdrawal]
  · intro u ut tt acc now
    simp [process_complete_withdrawal]
  · intro u ut tt acc now hlt
    simp [process_complete_withdrawal, hlt]
  · intro u ut tt acc now hge hterm
    have h1 : ¬(now < acc.withdrawal_request.unlock_time) := not_lt.mpr hge
    simp [process_complete_withdrawal, h1, hterm]
  · intro u ut tt acc now hge hc hx hlt
    have h1 : ¬(now < acc.withdrawal_request.unlock_time) := not_lt.mpr hge
    have hcs : checked_sub acc.withdrawal_request.amount
        (fee64 acc.withdrawal_request.amount acc.protocol_state.withdrawal_fee_rate)
        = none := by
      simp [checked_sub, not_le.mpr hlt]
    simp [process_complete_withdrawal, h1, hc, hx, hcs]
  · intro a t m dfr wfr st
    simp [process_init]
  · intro a t m dfr wfr st hd
    simp [process_init, eq_true hd]
  · intro u ut tt amt cs acc now hp hnr hsub hnall
    by_cases h1 : acc.protocol_state.total_deposited + amt < U64_MOD
    · by_cases h2 : acc.protocol_state.total_points + amt / 10000000 < U64_MOD
      · have h3 : ¬(acc.protocol_state.total_fees
            + fee64 amt acc.protocol_state.deposit_fee_rate < U64_MOD) := by tauto
        simp [process_deposit, hp, hnr, checked_sub, checked_add, hsub, h1, h2, h3]
      · simp [process_deposit, hp, hnr, checked_sub, checked_add, hsub, h1, h2]
    · simp [process_deposit, hp, hnr, checked_sub, checked_add, hsub, h1]
  · intro u ut tt acc now hge hc hx hsub hover
    have h1 : ¬(now < acc.withdrawal_request.unlock_time) := not_lt.mpr hge
    simp [process_complete_withdrawal, h1, hc, hx, checked_sub, checked_add, hsub, hover]
/-- Concrete instance of claim C9's amended theorem: a paused deposit
aborts with `Unauthorized` and leaves both accounts exactly as they were. -/
theorem validation_errors_mutate_nothing_witness :
    process_deposit 1 true 2 3 10000000 [7] ⟨pausedPS, pt0⟩ 0
      = ⟨.error (.Custom .Unauthorized), ⟨pausedPS, pt0⟩, [], []⟩ :=
  validation_errors_mutate_nothing.2.1 1 2 3 10000000 [7] ⟨pausedPS, pt0⟩ 0 (by decide)

/-- A request created at time 0 with the 86400-unit cooldown. -/
def wrBoundary : WithdrawalRequest :=
  { is_initialized := true, requester := 1, amount := 20000000, request_time := 0,
    unlock_time := 86400, completed := false, cancelled := false }

/-- Claim C6: on a non-terminal request (with the ledger's spec-level
invariants — fee rate ≤ 500 and no `total_withdrawn` overflow — in force),
`process_complete_withdrawal` fails `WithdrawalNotReady` exactly when
`now < unlock_time` and returns `Ok` whenever `unlock_time ≤ now`: the
boundary is inclusive, so `now = unlock_time - 1` fails and
`now = unlock_time` passes the timelock check. -/
theorem complete_withdrawal_timelock_boundary (u ut tt : Nat)
    (acc : CompleteWithdrawalAccounts) (now : Int)
    (hc : acc.withdrawal_request.completed = false)
    (hx : acc.withdrawal_request.cancelled = false)
    (hrate : acc.protocol_state.withdrawal_fee_rate ≤ 500)
    (hamt : acc.withdrawal_request.amount < U64_MOD)
    (hsum : acc.protocol_state.total_withdrawn + acc.withdrawal_request.amount < U64_MOD) :
    (now < acc.withdrawal_request.unlock_time →
      (process_complete_withdrawal u true ut tt acc now).result
        = .error (.Custom .WithdrawalNotReady))
    ∧ (acc.withdrawal_request.unlock_time ≤ now →
      (process_complete_withdrawal u true ut tt acc now).result = .ok ()) := by
  constructor
  · intro hlt
    simp [process_complete_withdrawal, hlt]
  · intro hge
    have h1 : ¬(now < acc.withdrawal_request.unlock_time) := not_lt.mpr hge
    have hfee := fee64_eq_and_le acc.withdrawal_request.amount
      acc.protocol_state.withdrawal_fee_rate (le_trans hrate (by norm_num)) hamt
    have hsub : fee64 acc.withdrawal_request.amount acc.protocol_state.withdrawal_fee_rate
        ≤ acc.withdrawal_request.amount := hfee.1 ▸ hfee.2
    simp [process_complete_withdrawal, h1, hc, hx, checked_sub, checked_add, hsub, hsum]

/-- Concrete instance of claim C6's theorem: one time unit before the unlock
time the completion fails `WithdrawalNotReady`; at the unlock time it
returns `Ok`. -/
theorem complete_withdrawal_timelock_boundary_witness :
    (process_complete_withdrawal 1 true 2 3 ⟨basePS, wrBoundary⟩ 86399).result
      = .error (.Custom .WithdrawalNotReady)
    ∧ (process_complete_withdrawal 1 true 2 3 ⟨basePS, wrBoundary⟩ 86400).result
      = .ok () :=
  ⟨(complete_withdrawal_timelock_boundary 1 2 3 ⟨basePS, wrBoundary⟩ 86399
      (by decide) (by decide) (by decide) (by decide) (by decide)).1 (by decide),
   (complete_withdrawal_timelock_boundary 1 2 3 ⟨basePS, wrBoundary⟩ 86400
      (by decide) (by decide) (by decide) (by decide) (by decide)).2 (by decide)⟩

/-- Claim C7: with the ledger unpaused and the fee rate within the
protocol's 500-bp bound, `process_deposit` fails `InvalidAmount` outside
`[10_000_000, 100_000_000_000]`; inside the range the widened-arithmetic
fee equals `floor(amount * rate / 10000)` and never exceeds the amount,
one `FloatingPoint` record with `mass = 1` and `locked_until = now + 12`
is built per supplied commitment, and the run either commits
`total_deposited += amount`, `total_points += amount / 10_000_000`,
`total_fees += fee` (transferring `net = amount - fee`) or, when any of
the three checked additions overflows, aborts with `InvalidAmount`. -/
theorem deposit_functional_behavior (u ut tt amt : Nat) (cs : List Nat)
    (acc : DepositAccounts) (now : Int)
    (hp : acc.protocol_state.is_paused = false)
    (hrate : acc.protocol_state.deposit_fee_rate ≤ 500) :
    ((amt < 10000000 ∨ 100000000000 < amt) →
       process_deposit u true ut tt amt cs acc now
         = ⟨.error (.Custom .InvalidAmount), acc, [], []⟩)
    ∧ (10000000 ≤ amt → amt ≤ 100000000000 →
        (fee64 amt acc.protocol_state.deposit_fee_rate
            = amt * acc.protocol_state.deposit_fee_rate / 10000
         ∧ fee64 amt acc.protocol_state.deposit_fee_rate ≤ amt)
        ∧ ((acc.protocol_state.total_deposited + amt < U64_MOD
            ∧ acc.protocol_state.total_points + amt / 10000000 < U64_MOD
            ∧ acc.protocol_state.total_fees
                + fee64 amt acc.protocol_state.deposit_fee_rate < U64_MOD) →
            process_deposit u true ut tt amt cs acc now
              = ⟨.ok (),
                 ⟨{ acc.protocol_state with
                     total_deposited := acc.protocol_state.total_deposited + amt,
                     total_points := acc.protocol_state.total_points + amt / 10000000,
                     total_fees := acc.protocol_state.total_fees
                       + fee64 amt acc.protocol_state.deposit_fee_rate },
                  ((cs.map (depositPoint u now)).getLast?).getD acc.point⟩,
                 [(ut, tt, amt - fee64 amt acc.protocol_state.deposit_fee_rate)],
                 cs.map (depositPoint u now)⟩)
        ∧ (¬(acc.protocol_state.total_deposited + amt < U64_MOD
             ∧ acc.protocol_state.total_points + amt / 10000000 < U64_MOD
             ∧ acc.protocol_state.total_fees
                 + fee64 amt acc.protocol_state.deposit_fee_rate < U64_MOD) →
            (process_deposit u true ut tt amt cs acc now).result
              = .error (.Custom .InvalidAmount))) := by
  constructor
  · intro hout
    have h3 : (amt < 10000000 ∨ 100000000000 < amt) = True := eq_true hout
    simp [process_deposit, hp, h3]
  · intro hge hle
    have hnr : ¬(amt < 10000000 ∨ 100000000000 < amt) := by omega
    have hamtU : amt < U64_MOD := by unfold U64_MOD; omega
    have hfee := fee64_eq_and_le amt acc.protocol_state.deposit_fee_rate
      (le_trans hrate (by norm_num)) hamtU
    have hsub : fee64 amt acc.protocol_state.deposit_fee_rate ≤ amt := hfee.1 ▸ hfee.2
    refine ⟨⟨hfee.1, hfee.1 ▸ hfee.2⟩, ?_, ?_⟩
    · rintro ⟨h1, h2, h3⟩
      simp [process_deposit, hp, hnr, checked_sub, checked_add, hsub, h1, h2, h3]
    · intro hnall
      by_cases h1 : acc.protocol_state.total_deposited + amt < U64_MOD
      · by_cases h2 : acc.protocol_state.total_points + amt / 10000000 < U64_MOD
        · have h3 : ¬(acc.protocol_state.total_fees
              + fee64 amt acc.protocol_state.deposit_fee_rate < U64_MOD) := by tauto
          simp [process_deposit, hp, hnr, checked_sub, checked_add, hsub, h1, h2, h3]
        · simp [process_deposit, hp, hnr, checked_sub, checked_add, hsub, h1, h2]
      · simp [process_deposit, hp, hnr, checked_sub, checked_add, hsub, h1]

/-- Concrete instance of claim C7's theorem — the spec §8 scenario: a
20_000_000 deposit at 100 bp yields fee 200_000, transfers net 19_800_000,
builds two mass-1 point records locked until `now + 12`, and commits
counters 20_000_000 / 2 / 200_000. -/
theorem deposit_functional_behavior_witness :
    process_deposit 1 true 2 3 20000000 [21, 22] ⟨basePS, pt0⟩ 0
      = ⟨.ok (),
         ⟨{ basePS with total_deposited := 20000000, total_points := 2, total_fees := 200000 },
          depositPoint 1 0 22⟩,
         [(2, 3, 19800000)],
         [depositPoint 1 0 21, depositPoint 1 0 22]⟩ := by
  have h := ((deposit_functional_behavior 1 2 3 20000000 [21, 22] ⟨basePS, pt0⟩ 0
    (by decide) (by decide)).2 (by decide) (by decide)).2.1 (by decide)
  rw [h]
  decide

/-- `getLast?` commutes with `map`. -/
theorem getLast?_map_eq {α β : Type} (f : α → β) :
    ∀ (l : List α), (l.map f).getLast? = l.getLast?.map f := by
  intro l
  induction l with
  | nil => rfl
  | cons a t ih =>
    cases t with
    | nil => rfl
    | cons b t2 =>
      rw [List.map_cons, List.map_cons, List.getLast?_cons_cons,
        List.getLast?_cons_cons, ← List.map_cons]
      exact ih

/-- On a successful run, the point account holds the last write and the
writes are one record per commitment. -/
theorem deposit_ok_point_writes (u ut tt amt : Nat) (cs : List Nat)
    (acc : DepositAccounts) (now : Int) :
    (process_deposit u true ut tt amt cs acc now).result = .ok () →
    (process_deposit u true ut tt amt cs acc now).accounts.point
        = ((cs.map (depositPoint u now)).getLast?).getD acc.point
    ∧ (process_deposit u true ut tt amt cs acc now).writes
        = cs.map (depositPoint u now) := by
  intro hok
  by_cases hp : acc.protocol_state.is_paused = true
  · exfalso
    simp [process_deposit, hp] at hok
  · by_cases hr : amt < 10000000 ∨ 100000000000 < amt
    · exfalso
      simp [process_deposit, hp, eq_true hr] at hok
    · cases hcs : checked_sub amt (fee64 amt acc.protocol_state.deposit_fee_rate) with
      | none =>
        exfalso
        simp [process_deposit, hp, hr, hcs] at hok
      | some net =>
        cases h1 : checked_add acc.protocol_state.total_deposited amt with
        | none => simp [process_deposit, hp, hr, hcs, h1]
        | some td =>
          cases h2 : checked_add acc.protocol_state.total_points (amt / 10000000) with
          | none => simp [process_deposit, hp, hr, hcs, h1, h2]
          | some tp =>
            cases h3 : checked_add acc.protocol_state.total_fees
                (fee64 amt acc.protocol_state.deposit_fee_rate) with
            | none => simp [process_deposit, hp, hr, hcs, h1, h2, h3]
            | some tf => simp [process_deposit, hp, hr, hcs, h1, h2, h3]

/-- Claim C10: in `process_deposit` every `FloatingPoint` record of the
commitments loop is serialized into the same single supplied point
account, each iteration overwriting the previous: a successful deposit
whose commitment list ends in `clast` performs one write per commitment
(`writes = cs.map (depositPoint u now)`) yet leaves the account holding
exactly `depositPoint u now clast`; the earlier commitments persist in no
account, the instruction having supplied only this one point account. -/
theorem deposit_last_commitment_wins (u ut tt amt : Nat) (cs : List Nat)
    (acc : DepositAccounts) (now : Int) (clast : Nat)
    (hlast : cs.getLast? = some clast)
    (hok : (process_deposit u true ut tt amt cs acc now).result = .ok ()) :
    (process_deposit u true ut tt amt cs acc now).accounts.point
      = depositPoint u now clast
    ∧ (process_deposit u true ut tt amt cs acc now).writes
      = cs.map (depositPoint u now) := by
  have h := deposit_ok_point_writes u ut tt amt cs acc now hok
  refine ⟨?_, h.2⟩
  rw [h.1, getLast?_map_eq, hlast]
  rfl

/-- Concrete instance of claim C10's theorem: depositing with commitments
`[31, 32]` leaves the single point account holding the record built from
32, the last commitment. -/
theorem deposit_last_commitment_wins_witness :
    (process_deposit 1 true 2 3 20000000 [31, 32] ⟨basePS, pt0⟩ 0).accounts.point
      = depositPoint 1 0 32 :=
  (deposit_last_commitment_wins 1 2 3 20000000 [31, 32] ⟨basePS, pt0⟩ 0 32
    (by decide) (by decide)).1
